import Mathlib

/-!
Shallow embedding of the temporal-operator namespace reconciler
(`controllers/temporalnamespace_controller.go`), the cluster defaults
normalizer (`reconcileDefaults`) and the frontend service builder
(`FrontendServiceBuilder`), together with theorems checking the
repository's specification against this embedding.

Go maps are embedded as association lists (`List (String × α)`) with a
no-duplicate-keys side condition where a proof needs it; Go map iteration
order is nondeterministic, so every fact proved here is order-insensitive
(set membership, extensional lookup) or concerns a deterministic outcome
(whether an error is raised, which requests are issued as sets).
-/

deriving instance DecidableEq for Except

namespace TemporalOperator

/-- The Temporal API `enums.IndexedValueType` enumeration of search
attribute value types. -/
inductive IndexedValueType where
  | unspecified
  | text
  | keyword
  | int
  | double
  | bool
  | datetime
  | keywordList
deriving DecidableEq, Repr

/-- The Temporal API `enums.IndexedValueType_shorthandValue` table:
shorthand type-string to enumeration value. -/
def indexedValueTypeShorthand : List (String × IndexedValueType) :=
  [("Unspecified", .unspecified),
   ("Text", .text),
   ("Keyword", .keyword),
   ("Int", .int),
   ("Double", .double),
   ("Bool", .bool),
   ("Datetime", .datetime),
   ("KeywordList", .keywordList)]

/-- ASCII lower-casing of one character. -/
def foldChar (c : Char) : Char :=
  if c.toNat ≥ 65 ∧ c.toNat ≤ 90 then Char.ofNat (c.toNat + 32) else c

/-- Go's `strings.EqualFold`, restricted to the ASCII folding the shorthand
table's keys exercise. -/
def eqFold (a b : String) : Bool :=
  a.data.map foldChar == b.data.map foldChar

/-- `searchAttributeTypeStringToEnum`: case-insensitive lookup of a type
string in the shorthand table; unknown strings are an error.  The Go code
ranges over the shorthand map in nondeterministic order, but the keys are
pairwise non-equal under folding, so the outcome is deterministic. -/
def searchAttributeTypeStringToEnum (s : String) : Except String IndexedValueType :=
  match indexedValueTypeShorthand.find? (fun p => eqFold s p.1) with
  | some p => Except.ok p.2
  | none => Except.error ("unsupported search attribute type: " ++ s)

/-- Association-list lookup, the embedding of Go map indexing. -/
def alookup {α : Type} : List (String × α) → String → Option α
  | [], _ => none
  | (k, v) :: rest, key => if k = key then some v else alookup rest key

/-- No two entries share a key: the invariant of every embedded Go map. -/
def NodupKeys {α : Type} (l : List (String × α)) : Prop :=
  (l.map Prod.fst).Nodup

instance {α : Type} (l : List (String × α)) : Decidable (NodupKeys l) := by
  unfold NodupKeys; infer_instance

/-- The translation loop of `reconcileCustomSearchAttributes` building
`specCustomSearchAttributes`: each declared type string is resolved via
`searchAttributeTypeStringToEnum`; the first unresolvable string fails the
whole pass. -/
def translateSpec : List (String × String) → Except String (List (String × IndexedValueType))
  | [] => Except.ok []
  | (n, s) :: rest =>
    match searchAttributeTypeStringToEnum s with
    | Except.error e =>
      Except.error ("failed to parse search attribute " ++ n ++ " because its type is " ++ s ++ ": " ++ e)
    | Except.ok t =>
      match translateSpec rest with
      | Except.error e => Except.error e
      | Except.ok r => Except.ok ((n, t) :: r)

/-- `customSearchAttributesToRemove`: server attribute names absent from the
translated spec mapping. -/
def computeRemovals (spec : List (String × IndexedValueType))
    (remote : List (String × IndexedValueType)) : List String :=
  (remote.filter (fun p => (alookup spec p.1).isNone)).map Prod.fst

/-- `customSearchAttributesToAdd` together with the conflict check: spec
attributes absent from the server are collected; a name present on both
sides with a different type fails the pass. -/
def computeAdditions (spec : List (String × IndexedValueType))
    (remote : List (String × IndexedValueType)) :
    Except String (List (String × IndexedValueType)) :=
  match spec with
  | [] => Except.ok []
  | (n, t) :: rest =>
    match alookup remote n with
    | none =>
      match computeAdditions rest remote with
      | Except.error e => Except.error e
      | Except.ok r => Except.ok ((n, t) :: r)
    | some u =>
      if t = u then computeAdditions rest remote
      else Except.error ("search attribute " ++ n ++ " already exists and has different type")

/-- One call observed on the remote Temporal platform, including client
connection acquisition and release events. -/
inductive RemoteCall where
  | openNSClient
  | closeNSClient
  | openClusterClient
  | closeClusterClient
  | registerNs
  | updateNs
  | deleteNs
  | listAttrs
  | removeAttrs (names : List String)
  | addAttrs (attrs : List (String × IndexedValueType))
deriving DecidableEq, Repr

/-- `reconcileCustomSearchAttributes`, embedded as the trace of remote
calls it issues and its outcome.  `clusterClientOk` models whether
`temporal.GetClusterClient` succeeds, `listOk` whether the
`ListSearchAttributes` request succeeds and `remote` the server's custom
attribute mapping that request returns.  Note the cluster client opened
here has no corresponding close: the Go function never calls
`client.Close()`. -/
def reconcileCustomSearchAttributesModel (clusterClientOk listOk : Bool)
    (spec : List (String × String)) (remote : List (String × IndexedValueType)) :
    List RemoteCall × Except String Unit :=
  if clusterClientOk = false then
    ([], Except.error "cannot create cluster client")
  else if listOk = false then
    ([RemoteCall.openClusterClient, RemoteCall.listAttrs], Except.error "cannot list search attributes")
  else
    match translateSpec spec with
    | Except.error e => ([RemoteCall.openClusterClient, RemoteCall.listAttrs], Except.error e)
    | Except.ok spec' =>
      let toRemove := computeRemovals spec' remote
      match computeAdditions spec' remote with
      | Except.error e => ([RemoteCall.openClusterClient, RemoteCall.listAttrs], Except.error e)
      | Except.ok toAdd =>
        ([RemoteCall.openClusterClient, RemoteCall.listAttrs]
            ++ (if toRemove.isEmpty then [] else [RemoteCall.removeAttrs toRemove])
            ++ (if toAdd.isEmpty then [] else [RemoteCall.addAttrs toAdd]),
          Except.ok ())

/-- Effect of one remote call on the server's custom attribute mapping. -/
def applyCall (remote : List (String × IndexedValueType)) :
    RemoteCall → List (String × IndexedValueType)
  | RemoteCall.removeAttrs names => remote.filter (fun p => !(names.contains p.1))
  | RemoteCall.addAttrs attrs => remote ++ attrs
  | _ => remote

/-- Effect of a trace of remote calls on the server's custom attribute
mapping. -/
def applyCalls (remote : List (String × IndexedValueType)) (calls : List RemoteCall) :
    List (String × IndexedValueType) :=
  calls.foldl applyCall remote

/-- The deletion finalizer marker put on `TemporalNamespace` objects
(`deletionFinalizer`, an opaque string constant of the controllers
package). -/
def deletionFinalizer : String := "deletion.finalizers.temporal.io"

/-- The fragment of a `TemporalNamespace` object the reconciler reads and
writes: deletion timestamp (none embeds `IsZero`), finalizer set, the
`allowDeletion` spec flag and the declared custom search attributes. -/
structure TemporalNamespace where
  deletionTimestamp : Option Nat
  finalizers : List String
  allowDeletion : Bool
  customSearchAttributes : List (String × String)
deriving DecidableEq, Repr

/-- The fragment of the referenced `TemporalCluster` the reconciler reads:
its readiness. -/
structure TemporalCluster where
  ready : Bool
deriving DecidableEq, Repr

/-- Outcome of the `client.Register` remote call. -/
inductive RegisterOutcome where
  | ok
  | alreadyExists
  | err (msg : String)
deriving DecidableEq, Repr

/-- Outcome of the `DeleteNamespace` remote call. -/
inductive DeleteOutcome where
  | ok
  | notFound
  | err (msg : String)
deriving DecidableEq, Repr

/-- Behavior of the environment (client construction and remote calls)
during one reconcile pass. -/
structure RemoteBehavior where
  nsClientOk : Bool
  clusterClientOk : Bool
  register : RegisterOutcome
  update : Option String
  listOk : Bool
  delete : DeleteOutcome
  remote : List (String × IndexedValueType)
deriving DecidableEq, Repr

/-- The status conditions one pass sets on the object: the
`ReconcileError` condition (reason and message when set to True), the
`ReconcileSuccess` condition and the `Ready` condition. -/
structure NsConditions where
  reconcileError : Option (String × String)
  reconcileSuccess : Bool
  ready : Bool
deriving DecidableEq, Repr

/-- No condition set yet this pass. -/
def initConds : NsConditions :=
  { reconcileError := none, reconcileSuccess := false, ready := false }

/-- The `ctrl.Result` and error value a pass hands back to
controller-runtime. -/
structure ReconcileResult where
  requeueAfterSeconds : Nat
  requeue : Bool
  err : Option String
deriving DecidableEq, Repr

/-- controller-runtime's requeue policy for a returned `(Result, error)`
pair: the backoff retry is engaged iff the returned error is non-nil or
`Result.Requeue` is set; a zero `RequeueAfter` with a nil error schedules
nothing. -/
def triggersBackoff (r : ReconcileResult) : Bool :=
  r.err.isSome || r.requeue

/-- `handleErrorWithRequeue`: set the `ReconcileError` condition True with
the given reason (defaulted when empty) and message, and return the
caller's requeue delay with a nil error. -/
def handleErrorWithRequeue (conds : NsConditions) (reason msg : String)
    (requeueAfterSeconds : Nat) : NsConditions × ReconcileResult :=
  let reason := if reason = "" then "ReconcileError" else reason
  ({ conds with reconcileError := some (reason, msg) },
   { requeueAfterSeconds := requeueAfterSeconds, requeue := false, err := none })

/-- `handleError`: `handleErrorWithRequeue` with a zero delay. -/
def handleError (conds : NsConditions) (reason msg : String) :
    NsConditions × ReconcileResult :=
  handleErrorWithRequeue conds reason msg 0

/-- `controllerutil.AddFinalizer`: append the marker if absent. -/
def addFin (ns : TemporalNamespace) : TemporalNamespace :=
  if deletionFinalizer ∈ ns.finalizers then ns
  else { ns with finalizers := ns.finalizers ++ [deletionFinalizer] }

/-- `controllerutil.RemoveFinalizer`: drop the marker. -/
def removeFin (ns : TemporalNamespace) : TemporalNamespace :=
  { ns with finalizers := ns.finalizers.filter (fun f => f ≠ deletionFinalizer) }

/-- `ensureFinalizer`: add the deletion finalizer when no deletion is
pending and the spec allows deletion. -/
def ensureFinalizerM (ns : TemporalNamespace) : TemporalNamespace :=
  if ns.deletionTimestamp = none ∧ ns.allowDeletion then addFin ns else ns

/-- `ensureNamespaceDeleted`: nothing to do without the finalizer;
otherwise open a cluster client (released by defer on every path), issue
`DeleteNamespace`, tolerate not-found, and drop the finalizer on
success. -/
def ensureNamespaceDeletedM (b : RemoteBehavior) (ns : TemporalNamespace) :
    TemporalNamespace × List RemoteCall × Except String Unit :=
  if deletionFinalizer ∈ ns.finalizers then
    if b.clusterClientOk = false then
      (ns, [], Except.error "cannot create cluster client")
    else
      match b.delete with
      | DeleteOutcome.ok =>
        (removeFin ns,
         [RemoteCall.openClusterClient, RemoteCall.deleteNs, RemoteCall.closeClusterClient],
         Except.ok ())
      | DeleteOutcome.notFound =>
        (removeFin ns,
         [RemoteCall.openClusterClient, RemoteCall.deleteNs, RemoteCall.closeClusterClient],
         Except.ok ())
      | DeleteOutcome.err m =>
        (ns,
         [RemoteCall.openClusterClient, RemoteCall.deleteNs, RemoteCall.closeClusterClient],
         Except.error ("cannot delete namespace: " ++ m))
  else (ns, [], Except.ok ())

/-- The search attribute phase of a pass together with the conditions it
produces: `reconcileCustomSearchAttributes` then either the error branch
or the `Ready` and `ReconcileSuccess` conditions of `handleSuccess`. -/
def searchAttrPhase (b : RemoteBehavior) (ns : TemporalNamespace) :
    NsConditions × List RemoteCall :=
  match reconcileCustomSearchAttributesModel b.clusterClientOk b.listOk
      ns.customSearchAttributes b.remote with
  | (tr, Except.error e) => ((handleError initConds "ReconcileError" e).1, tr)
  | (tr, Except.ok _) =>
    ({ reconcileError := none, reconcileSuccess := true, ready := true }, tr)

/-- The remote registration phase: `client.Register`, falling back to
`client.Update` when the register call reports the namespace already
exists; any other register error, or an update error, fails the pass. -/
def registerPhase (b : RemoteBehavior) (ns : TemporalNamespace) :
    NsConditions × List RemoteCall :=
  match b.register with
  | RegisterOutcome.err m =>
    ((handleError initConds "ReconcileError" ("cannot create namespace: " ++ m)).1,
     [RemoteCall.registerNs])
  | RegisterOutcome.ok =>
    match searchAttrPhase b ns with
    | (c, tr) => (c, RemoteCall.registerNs :: tr)
  | RegisterOutcome.alreadyExists =>
    match b.update with
    | some m =>
      ((handleError initConds "ReconcileError" m).1,
       [RemoteCall.registerNs, RemoteCall.updateNs])
    | none =>
      match searchAttrPhase b ns with
      | (c, tr) => (c, RemoteCall.registerNs :: RemoteCall.updateNs :: tr)

/-- Output of one reconcile pass: the object as patched, the conditions
set, the result handed to the runtime and the trace of remote calls. -/
structure PassOutput where
  ns : TemporalNamespace
  conds : NsConditions
  result : ReconcileResult
  trace : List RemoteCall
deriving DecidableEq, Repr

/-- One reconcile pass of `TemporalNamespaceReconciler.Reconcile` for a
present object: cluster fetch (finalizer drop when the cluster is absent
and deletion is pending, error otherwise), the readiness gate with its
fixed 10 second requeue, the deletion branch, `ensureFinalizer`, then the
namespace client scope (opened once, released by defer at pass end on
every path), registration and the search attribute phase. -/
def reconcile (b : RemoteBehavior) (ns : TemporalNamespace)
    (clusterOpt : Option TemporalCluster) : PassOutput :=
  match clusterOpt with
  | none =>
    if ns.deletionTimestamp.isSome then
      { ns := removeFin ns, conds := initConds,
        result := { requeueAfterSeconds := 0, requeue := false, err := none }, trace := [] }
    else
      match handleError initConds "ReconcileError" "temporal cluster not found" with
      | (c, res) => { ns := ns, conds := c, result := res, trace := [] }
  | some cluster =>
    if cluster.ready = false then
      { ns := ns, conds := initConds,
        result := { requeueAfterSeconds := 10, requeue := false, err := none }, trace := [] }
    else if ns.deletionTimestamp.isSome then
      match ensureNamespaceDeletedM b ns with
      | (ns', tr, Except.ok _) =>
        { ns := ns', conds := initConds,
          result := { requeueAfterSeconds := 0, requeue := false, err := none }, trace := tr }
      | (ns', tr, Except.error e) =>
        match handleError initConds "ReconcileError" e with
        | (c, res) => { ns := ns', conds := c, result := res, trace := tr }
    else
      let ns' := ensureFinalizerM ns
      if b.nsClientOk = false then
        match handleError initConds "ReconcileError" "cannot create cluster namespace client" with
        | (c, res) => { ns := ns', conds := c, result := res, trace := [] }
      else
        match registerPhase b ns' with
        | (c, tr) =>
          { ns := ns', conds := c,
            result := { requeueAfterSeconds := 0, requeue := false, err := none },
            trace := RemoteCall.openNSClient :: tr ++ [RemoteCall.closeNSClient] }

/-- `v1beta1.ServiceSpec`: per-service replica count, ports. Durations and
ports are embedded as integers. -/
structure ServiceSpec where
  replicas : Option Int := none
  port : Option Int := none
  membershipPort : Option Int := none
  httpPort : Option Int := none
deriving DecidableEq, Repr

/-- `v1beta1.TemporalServicesSpec`. -/
structure TemporalServicesSpec where
  frontend : Option ServiceSpec := none
  history : Option ServiceSpec := none
  matching : Option ServiceSpec := none
  worker : Option ServiceSpec := none
deriving DecidableEq, Repr

/-- The SQL datastore fragment `reconcileDefaults` touches. -/
structure SQLSpec where
  connectProtocol : String := ""
deriving DecidableEq, Repr

/-- A configured datastore; `sql` is a pointer in Go, so defaulting through
it mutates the stored spec. -/
structure DatastoreSpec where
  name : String := ""
  sql : Option SQLSpec := none
deriving DecidableEq, Repr

/-- The persistence fragment `reconcileDefaults` touches. -/
structure PersistenceSpec where
  defaultStore : String := ""
  visibilityStore : String := ""
deriving DecidableEq, Repr

/-- `v1beta1.TemporalUISpec` fragment. -/
structure TemporalUISpec where
  enabled : Bool := false
  version : String := ""
  image : String := ""
deriving DecidableEq, Repr

/-- `v1beta1.TemporalAdminToolsSpec` fragment. -/
structure TemporalAdminToolsSpec where
  enabled : Bool := false
  image : String := ""
deriving DecidableEq, Repr

/-- `v1beta1.CertificatesDurationSpec`; durations in hours. -/
structure CertificatesDurationSpec where
  rootCACertificate : Option Nat := none
  intermediateCAsCertificates : Option Nat := none
  clientCertificates : Option Nat := none
  frontendCertificate : Option Nat := none
  internodeCertificate : Option Nat := none
deriving DecidableEq, Repr

/-- `v1beta1.MTLSSpec` fragment: the provider and enablement flags the
cert-manager predicate reads, and the duration fields `reconcileDefaults`
fills; `refreshInterval` in hours. -/
structure MTLSSpec where
  provider : String := ""
  internodeEnabled : Bool := false
  frontendEnabled : Bool := false
  refreshInterval : Option Nat := none
  certificatesDuration : Option CertificatesDurationSpec := none
deriving DecidableEq, Repr

/-- The `v1beta1.ClusterSpec` fragment `reconcileDefaults` governs. -/
structure ClusterSpec where
  version : String := ""
  image : String := ""
  services : Option TemporalServicesSpec := none
  datastores : List DatastoreSpec := []
  persistence : PersistenceSpec := {}
  ui : Option TemporalUISpec := none
  adminTools : Option TemporalAdminToolsSpec := none
  mtls : Option MTLSSpec := none
deriving DecidableEq, Repr

def defaultTemporalVersion : String := "1.17.4"

def defaultTemporalImage : String := "temporalio/server"

def defaultTemporalUIVersion : String := "2.5.0"

def defaultTemporalUIImage : String := "temporalio/ui"

def defaultTemporalAdmintoolsImage : String := "temporalio/admin-tools"

/-- Modelled from the spec: `cluster.MTLSWithCertManagerEnabled()` lives in
the api package, outside the sampled sources.  Per the spec, optional
mutual-TLS durations are filled "only when mutual-TLS is enabled": mutual
TLS with the cert-manager provider is enabled when an MTLS spec is present
with that provider and internode or frontend encryption turned on.  It
reads none of the fields `reconcileDefaults` fills. -/
def mtlsWithCertManagerEnabled (s : ClusterSpec) : Bool :=
  match s.mtls with
  | none => false
  | some m => m.provider == "cert-manager" && (m.internodeEnabled || m.frontendEnabled)

/-- Fill an empty string with its policy default (`if x == "" { x = d }`). -/
def defaultString (v d : String) : String :=
  if v = "" then d else v

/-- One service spec block of `reconcileDefaults`: allocate when nil, then
fill unset replicas, port and membership port. -/
def defaultService (o : Option ServiceSpec) (port mport : Int) : ServiceSpec :=
  let s := o.getD {}
  { s with replicas := some (s.replicas.getD 1),
           port := some (s.port.getD port),
           membershipPort := some (s.membershipPort.getD mport) }

/-- The datastore loop of `reconcileDefaults`: fill an unset SQL connect
protocol with "tcp". -/
def defaultDatastore (d : DatastoreSpec) : DatastoreSpec :=
  match d.sql with
  | none => d
  | some q => { d with sql := some { q with connectProtocol := defaultString q.connectProtocol "tcp" } }

/-- The MTLS block of `reconcileDefaults`: when cert-manager mutual TLS is
enabled, fill the refresh interval and every unset certificate duration. -/
def defaultMTLS (m : MTLSSpec) : MTLSSpec :=
  let cd := m.certificatesDuration.getD {}
  { m with
    refreshInterval := some (m.refreshInterval.getD 1),
    certificatesDuration := some
      { rootCACertificate := some (cd.rootCACertificate.getD 87600),
        intermediateCAsCertificates := some (cd.intermediateCAsCertificates.getD 43830),
        clientCertificates := some (cd.clientCertificates.getD 8766),
        frontendCertificate := some (cd.frontendCertificate.getD 8766),
        internodeCertificate := some (cd.internodeCertificate.getD 8766) } }

/-- The mutation `reconcileDefaults` performs on a cluster spec. -/
def applyDefaults (s : ClusterSpec) : ClusterSpec :=
  let sv := s.services.getD {}
  let u := s.ui.getD {}
  let a := s.adminTools.getD {}
  { version := defaultString s.version defaultTemporalVersion,
    image := defaultString s.image defaultTemporalImage,
    services := some
      { frontend := some (defaultService sv.frontend 7233 6933),
        history := some (defaultService sv.history 7234 6934),
        matching := some (defaultService sv.matching 7235 6935),
        worker := some (defaultService sv.worker 7239 6939) },
    datastores := s.datastores.map defaultDatastore,
    persistence := { s.persistence with
      visibilityStore := defaultString s.persistence.visibilityStore s.persistence.defaultStore },
    ui := some { u with version := defaultString u.version defaultTemporalUIVersion,
                        image := defaultString u.image defaultTemporalUIImage },
    adminTools := some { a with image := defaultString a.image defaultTemporalAdmintoolsImage },
    mtls := if mtlsWithCertManagerEnabled s then s.mtls.map defaultMTLS else s.mtls }

/-- `reconcileDefaults`: mutate the spec and report whether it changed,
comparing against a deep copy taken before (`!reflect.DeepEqual`). -/
def reconcileDefaults (s : ClusterSpec) : ClusterSpec × Bool :=
  (applyDefaults s, decide (applyDefaults s ≠ s))

/-- A port entry of a built `corev1.Service`. -/
structure ServicePort where
  name : String
  protocol : String
  port : Int
  targetPort : String
deriving DecidableEq, Repr

/-- The `corev1.Service` fragment `FrontendServiceBuilder.Update` owns. -/
structure K8sService where
  type : String := ""
  ports : List ServicePort := []
deriving DecidableEq, Repr

/-- `FrontendServiceBuilder.Update` on the fields it owns: overwrite the
service type and the full port list with the primary gRPC port, appending
the HTTP port when `Frontend.HTTPPort` is set.  Dereferencing an unset
`Frontend.Port` is a nil-pointer fault, embedded as `none`. Label and
annotation merging and the owner back-reference are carried by external
helper packages and are outside the modelled fragment. -/
def frontendServiceUpdate (frontend : ServiceSpec) (svc : K8sService) :
    Option K8sService :=
  match frontend.port with
  | none => none
  | some p =>
    let grpc : ServicePort := { name := "grpc-rpc", protocol := "TCP", port := p, targetPort := "rpc" }
    let base : K8sService := { svc with type := "ClusterIP", ports := [grpc] }
    some (match frontend.httpPort with
      | none => base
      | some hp =>
        let http : ServicePort := { name := "http", protocol := "TCP", port := hp, targetPort := "http" }
        { base with ports := base.ports ++ [http] })

theorem nodupKeys_cons {α : Type} {a : String} {b : α} {t : List (String × α)} :
    NodupKeys ((a, b) :: t) ↔ a ∉ t.map Prod.fst ∧ NodupKeys t := by
  simp [NodupKeys]

theorem alookup_eq_none {α : Type} (l : List (String × α)) (k : String) :
    alookup l k = none ↔ k ∉ l.map Prod.fst := by
  induction l with
  | nil => simp [alookup]
  | cons h t ih =>
    obtain ⟨a, b⟩ := h
    by_cases hak : a = k
    · subst hak
      simp [alookup]
    · simp [alookup, hak, ih, Ne.symm hak]

theorem mem_of_alookup {α : Type} {l : List (String × α)} {k : String} {v : α}
    (h : alookup l k = some v) : (k, v) ∈ l := by
  induction l with
  | nil => simp [alookup] at h
  | cons hd t ih =>
    obtain ⟨a, b⟩ := hd
    by_cases hak : a = k
    · subst hak
      simp [alookup] at h
      simp [h]
    · simp [alookup, hak] at h
      exact List.mem_cons_of_mem _ (ih h)

theorem alookup_of_mem {α : Type} {l : List (String × α)} {k : String} {v : α}
    (hnd : NodupKeys l) (h : (k, v) ∈ l) : alookup l k = some v := by
  induction l with
  | nil => simp at h
  | cons hd t ih =>
    obtain ⟨a, b⟩ := hd
    obtain ⟨hkey, hrest⟩ := nodupKeys_cons.1 hnd
    rcases List.mem_cons.1 h with heq | hmem
    · rw [Prod.mk.injEq] at heq
      obtain ⟨h1, h2⟩ := heq
      simp [alookup, h1.symm, h2]
    · by_cases hak : a = k
      · subst hak
        exact absurd (List.mem_map.2 ⟨(a, v), hmem, rfl⟩) hkey
      · simp [alookup, hak, ih hrest hmem]

theorem alookup_append {α : Type} (l₁ l₂ : List (String × α)) (k : String) :
    alookup (l₁ ++ l₂) k =
      match alookup l₁ k with
      | some v => some v
      | none => alookup l₂ k := by
  induction l₁ with
  | nil => simp [alookup]
  | cons hd t ih =>
    obtain ⟨a, b⟩ := hd
    by_cases hak : a = k <;> simp [alookup, hak, ih]

theorem alookup_filter {α : Type} (p : String × α → Bool) {l : List (String × α)}
    (hnd : NodupKeys l) (k : String) :
    alookup (l.filter p) k =
      (alookup l k).bind (fun v => if p (k, v) then some v else none) := by
  induction l with
  | nil => simp [alookup]
  | cons hd t ih =>
    obtain ⟨a, b⟩ := hd
    obtain ⟨hkey, hrest⟩ := nodupKeys_cons.1 hnd
    by_cases hak : a = k
    · subst hak
      by_cases hp : p (a, b)
      · simp [List.filter_cons, hp, alookup]
      · have hnone : alookup (t.filter p) a = none := by
          rw [alookup_eq_none]
          intro hmem
          rcases List.mem_map.1 hmem with ⟨x, hx, hxa⟩
          exact hkey (List.mem_map.2 ⟨x, List.mem_of_mem_filter hx, hxa⟩)
        simp [List.filter_cons, hp, alookup, hnone]
    · by_cases hp : p (a, b) <;> simp [List.filter_cons, hp, alookup, hak, ih hrest]

theorem mem_computeRemovals {spec remote : List (String × IndexedValueType)}
    (hR : NodupKeys remote) (n : String) :
    n ∈ computeRemovals spec remote ↔
      (∃ u, alookup remote n = some u) ∧ alookup spec n = none := by
  unfold computeRemovals
  constructor
  · intro h
    rcases List.mem_map.1 h with ⟨p, hp, hpn⟩
    rcases List.mem_filter.1 hp with ⟨hmem, hcond⟩
    obtain ⟨a, u⟩ := p
    cases hpn
    refine ⟨⟨u, alookup_of_mem hR hmem⟩, ?_⟩
    simpa [Option.isNone_iff_eq_none] using hcond
  · rintro ⟨⟨u, hu⟩, hnone⟩
    refine List.mem_map.2 ⟨(n, u), List.mem_filter.2 ⟨mem_of_alookup hu, ?_⟩, rfl⟩
    simpa [Option.isNone_iff_eq_none] using hnone

theorem computeAdditions_eq {spec remote : List (String × IndexedValueType)}
    (h : ∀ p ∈ spec, ∀ u, alookup remote p.1 = some u → p.2 = u) :
    computeAdditions spec remote =
      Except.ok (spec.filter (fun p => (alookup remote p.1).isNone)) := by
  induction spec with
  | nil => simp [computeAdditions]
  | cons hd t ih =>
    obtain ⟨n, ty⟩ := hd
    have ht : ∀ p ∈ t, ∀ u, alookup remote p.1 = some u → p.2 = u :=
      fun p hp => h p (List.mem_cons_of_mem _ hp)
    cases hrem : alookup remote n with
    | none => simp [computeAdditions, hrem, ih ht, List.filter_cons]
    | some u =>
      have hty : ty = u := h (n, ty) (List.mem_cons_self _ _) u hrem
      simp [computeAdditions, hrem, hty, ih ht, List.filter_cons]

theorem computeAdditions_error {spec remote : List (String × IndexedValueType)}
    {n : String} {t u : IndexedValueType}
    (hs : alookup spec n = some t) (hr : alookup remote n = some u) (hne : t ≠ u) :
    ∃ e, computeAdditions spec remote = Except.error e := by
  induction spec with
  | nil => simp [alookup] at hs
  | cons hd rest ih =>
    obtain ⟨m, s⟩ := hd
    by_cases hmn : m = n
    · subst hmn
      have hst : s = t := by simpa [alookup] using hs
      subst hst
      simp [computeAdditions, hr, hne]
    · have hs' : alookup rest n = some t := by simpa [alookup, hmn] using hs
      rcases ih hs' with ⟨e, he⟩
      cases hrem : alookup remote m with
      | none => simp [computeAdditions, hrem, he]
      | some w =>
        by_cases hsw : s = w <;> simp [computeAdditions, hrem, hsw, he]

theorem applyCalls_shape (remote : List (String × IndexedValueType))
    (rm : List String) (ad : List (String × IndexedValueType)) :
    applyCalls remote
        ([RemoteCall.openClusterClient, RemoteCall.listAttrs]
          ++ (if rm.isEmpty then [] else [RemoteCall.removeAttrs rm])
          ++ (if ad.isEmpty then [] else [RemoteCall.addAttrs ad]))
      = (remote.filter (fun p => !(rm.contains p.1))) ++ ad := by
  cases rm with
  | nil =>
    cases ad with
    | nil => simp [applyCalls, applyCall]
    | cons a as => simp [applyCalls, applyCall]
  | cons r rs =>
    cases ad with
    | nil => simp [applyCalls, applyCall]
    | cons a as => simp [applyCalls, applyCall]

theorem alookup_final {spec remote : List (String × IndexedValueType)}
    (hM : NodupKeys spec) (hR : NodupKeys remote)
    (hC : ∀ p ∈ spec, ∀ q ∈ remote, p.1 = q.1 → p.2 = q.2) (n : String) :
    alookup ((remote.filter (fun p => !((computeRemovals spec remote).contains p.1)))
        ++ spec.filter (fun p => (alookup remote p.1).isNone)) n
      = alookup spec n := by
  rw [alookup_append, alookup_filter _ hR, alookup_filter _ hM]
  cases hsp : alookup spec n with
  | some t =>
    cases hrem : alookup remote n with
    | some u =>
      have htu : t = u :=
        hC (n, t) (mem_of_alookup hsp) (n, u) (mem_of_alookup hrem) rfl
      have hnotrm : n ∉ computeRemovals spec remote := by
        rw [mem_computeRemovals hR]
        rintro ⟨-, hnone⟩
        rw [hsp] at hnone
        exact Option.noConfusion hnone
      simp [hrem, hsp, htu, hnotrm]
    | none => simp [hrem, hsp]
  | none =>
    cases hrem : alookup remote n with
    | some u =>
      have hinrm : n ∈ computeRemovals spec remote :=
        (mem_computeRemovals hR n).2 ⟨⟨u, hrem⟩, hsp⟩
      simp [hrem, hsp, hinrm]
    | none => simp [hrem, hsp]

/-- C1: for a spec attribute mapping whose type strings all resolve
(`translateSpec` succeeds, giving M) and a remote mapping R that agrees
with M in type on every shared name, one successful run of
`reconcileCustomSearchAttributes` issues one removal request holding
exactly the names of R minus M (skipped when that set is empty) and one
addition request holding exactly the name-to-type pairs of M minus R
(skipped when empty), touches no shared name, and the remote mapping
after applying the issued requests looks up exactly as M does. -/
theorem c1_attribute_reconciliation_convergence
    (spec : List (String × String)) (remote spec' : List (String × IndexedValueType))
    (hT : translateSpec spec = Except.ok spec')
    (hM : NodupKeys spec') (hR : NodupKeys remote)
    (hC : ∀ p ∈ spec', ∀ q ∈ remote, p.1 = q.1 → p.2 = q.2) :
    ∃ rm ad,
      reconcileCustomSearchAttributesModel true true spec remote =
        ([RemoteCall.openClusterClient, RemoteCall.listAttrs]
          ++ (if rm.isEmpty then [] else [RemoteCall.removeAttrs rm])
          ++ (if ad.isEmpty then [] else [RemoteCall.addAttrs ad]),
         Except.ok ())
      ∧ (∀ n, n ∈ rm ↔ (∃ u, alookup remote n = some u) ∧ alookup spec' n = none)
      ∧ (∀ n t, (n, t) ∈ ad ↔ alookup spec' n = some t ∧ alookup remote n = none)
      ∧ (∀ n, alookup (applyCalls remote
          (reconcileCustomSearchAttributesModel true true spec remote).1) n
            = alookup spec' n) := by
  have hC' : ∀ p ∈ spec', ∀ u, alookup remote p.1 = some u → p.2 = u :=
    fun p hp u hu => hC p hp (p.1, u) (mem_of_alookup hu) rfl
  have hAdd := @computeAdditions_eq spec' remote hC'
  have h1 : reconcileCustomSearchAttributesModel true true spec remote =
      ([RemoteCall.openClusterClient, RemoteCall.listAttrs]
        ++ (if (computeRemovals spec' remote).isEmpty then []
            else [RemoteCall.removeAttrs (computeRemovals spec' remote)])
        ++ (if (spec'.filter (fun p => (alookup remote p.1).isNone)).isEmpty then []
            else [RemoteCall.addAttrs (spec'.filter (fun p => (alookup remote p.1).isNone))]),
       Except.ok ()) := by
    simp [reconcileCustomSearchAttributesModel, hT, hAdd]
  refine ⟨computeRemovals spec' remote,
    spec'.filter (fun p => (alookup remote p.1).isNone), h1, ?_, ?_, ?_⟩
  · intro n
    exact mem_computeRemovals hR n
  · intro n t
    constructor
    · intro h
      rcases List.mem_filter.1 h with ⟨hmem, hcond⟩
      exact ⟨alookup_of_mem hM hmem, by simpa [Option.isNone_iff_eq_none] using hcond⟩
    · rintro ⟨hs, hr⟩
      exact List.mem_filter.2 ⟨mem_of_alookup hs, by simp [hr]⟩
  · intro n
    rw [congrArg Prod.fst h1]
    rw [applyCalls_shape, alookup_final hM hR hC]

/-- Closed instance of C1 at the spec's Scenario A: spec declares
CustomerId:Keyword and Amount:Int, the server holds CustomerId:Keyword
and Legacy:Text; after the issued requests the server maps Amount to
Int (and, by the theorem, the whole mapping equals the spec's). -/
theorem c1_attribute_reconciliation_convergence_witness :
    alookup (applyCalls [("CustomerId", IndexedValueType.keyword), ("Legacy", IndexedValueType.text)]
      (reconcileCustomSearchAttributesModel true true
        [("CustomerId", "Keyword"), ("Amount", "Int")]
        [("CustomerId", IndexedValueType.keyword), ("Legacy", IndexedValueType.text)]).1) "Amount"
      = alookup [("CustomerId", IndexedValueType.keyword), ("Amount", IndexedValueType.int)] "Amount" := by
  rcases c1_attribute_reconciliation_convergence
      [("CustomerId", "Keyword"), ("Amount", "Int")]
      [("CustomerId", IndexedValueType.keyword), ("Legacy", IndexedValueType.text)]
      [("CustomerId", IndexedValueType.keyword), ("Amount", IndexedValueType.int)]
      (by decide) (by decide) (by decide) (by decide) with ⟨rm, ad, -, -, -, hfinal⟩
  exact hfinal "Amount"

/-- C2: when some name shared between the translated spec mapping and the
remote mapping carries differing types, the pass fails with an error after
only the list request: no removal and no addition request is issued. -/
theorem c2_conflict_safety
    (spec : List (String × String)) (remote spec' : List (String × IndexedValueType))
    (hT : translateSpec spec = Except.ok spec')
    (n : String) (t u : IndexedValueType)
    (hs : alookup spec' n = some t) (hr : alookup remote n = some u) (hne : t ≠ u) :
    ∃ e, reconcileCustomSearchAttributesModel true true spec remote =
      ([RemoteCall.openClusterClient, RemoteCall.listAttrs], Except.error e) := by
  rcases computeAdditions_error hs hr hne with ⟨e, he⟩
  exact ⟨e, by simp [reconcileCustomSearchAttributesModel, hT, he]⟩

/-- Closed instance of C2 at the spec's Scenario B: spec declares
Amount:Int while the server holds Amount:Text; the pass issues only the
list request (no removal, no addition). -/
theorem c2_conflict_safety_witness :
    (reconcileCustomSearchAttributesModel true true
      [("Amount", "Int")] [("Amount", IndexedValueType.text)]).1
      = [RemoteCall.openClusterClient, RemoteCall.listAttrs] := by
  rcases c2_conflict_safety [("Amount", "Int")] [("Amount", IndexedValueType.text)]
      [("Amount", IndexedValueType.int)] (by decide) "Amount"
      IndexedValueType.int IndexedValueType.text (by decide) (by decide) (by decide)
    with ⟨e, he⟩
  rw [he]

/-- An all-succeeding environment with an empty remote attribute
mapping. -/
def behaviorOk : RemoteBehavior :=
  { nsClientOk := true, clusterClientOk := true, register := RegisterOutcome.ok,
    update := none, listOk := true, delete := DeleteOutcome.ok, remote := [] }

/-- A plain namespace object: no deletion pending, no finalizer, deletion
not allowed, no declared attributes. -/
def nsPlain : TemporalNamespace :=
  { deletionTimestamp := none, finalizers := [], allowDeletion := false,
    customSearchAttributes := [] }

/-- `nsPlain` with `allowDeletion` turned on. -/
def nsAllow : TemporalNamespace :=
  { deletionTimestamp := none, finalizers := [], allowDeletion := true,
    customSearchAttributes := [] }

/-- C3: a pass whose referenced cluster is present but not ready issues no
remote call at all and requeues after the fixed 10 second poll; the
finalizer-drop pass (cluster absent while deletion is pending) also issues
no remote call and only drops the finalizer. -/
theorem c3_dependency_gating (b : RemoteBehavior) (ns : TemporalNamespace)
    (cluster : TemporalCluster) :
    (cluster.ready = false →
      (reconcile b ns (some cluster)).trace = []
      ∧ (reconcile b ns (some cluster)).result
          = { requeueAfterSeconds := 10, requeue := false, err := none })
    ∧ (ns.deletionTimestamp.isSome = true →
      (reconcile b ns none).trace = []
      ∧ (reconcile b ns none).ns = removeFin ns) := by
  constructor
  · intro h
    simp [reconcile, h]
  · intro h
    simp [reconcile, h]

/-- Closed instance of C3: a not-ready pass and a finalizer-drop pass,
each with an empty remote trace. -/
theorem c3_dependency_gating_witness :
    (reconcile behaviorOk nsPlain (some { ready := false })).trace = []
    ∧ (reconcile behaviorOk { nsPlain with deletionTimestamp := some 1 } none).trace = [] :=
  ⟨((c3_dependency_gating behaviorOk nsPlain { ready := false }).1 rfl).1,
   ((c3_dependency_gating behaviorOk { nsPlain with deletionTimestamp := some 1 }
      { ready := false }).2 rfl).1⟩

/-- C10: without the deletion finalizer, `ensureNamespaceDeleted` returns
success immediately: no remote call, object untouched. -/
theorem c10_no_finalizer_no_remote_teardown (b : RemoteBehavior)
    (ns : TemporalNamespace) (h : deletionFinalizer ∉ ns.finalizers) :
    ensureNamespaceDeletedM b ns = (ns, [], Except.ok ()) := by
  simp [ensureNamespaceDeletedM, h]

/-- Closed instance of C10 on a namespace without the finalizer. -/
theorem c10_no_finalizer_no_remote_teardown_witness :
    ensureNamespaceDeletedM behaviorOk nsPlain = (nsPlain, [], Except.ok ()) :=
  c10_no_finalizer_no_remote_teardown behaviorOk nsPlain (by decide)

/-- C7 (code bug): on a fully successful pass that reaches the search
attribute phase, the trace holds one `openClusterClient` — the client
`reconcileCustomSearchAttributes` constructs — and no matching
`closeClusterClient`: that connection is never released, unlike the two
other acquisition sites, which defer a close. -/
theorem c7_cluster_client_not_released :
    (reconcile behaviorOk nsPlain (some { ready := true })).trace.count
        RemoteCall.openClusterClient = 1
    ∧ (reconcile behaviorOk nsPlain (some { ready := true })).trace.count
        RemoteCall.closeClusterClient = 0 := by
  decide

/-- C5: on a pass that reaches remote registration, an already-exists
answer from the register call is followed by an update call and is not
treated as an error (the pass continues exactly as if registration had
succeeded); any other register error aborts the pass with the error
condition set and no further remote request. -/
theorem c5_register_already_exists_fallback (b : RemoteBehavior)
    (ns : TemporalNamespace) (cluster : TemporalCluster)
    (hready : cluster.ready = true) (hdel : ns.deletionTimestamp = none)
    (hclient : b.nsClientOk = true) :
    (b.register = RegisterOutcome.alreadyExists → b.update = none →
      RemoteCall.updateNs ∈ (reconcile b ns (some cluster)).trace
      ∧ (reconcile b ns (some cluster)).conds
          = (reconcile { b with register := RegisterOutcome.ok } ns (some cluster)).conds
      ∧ (reconcile b ns (some cluster)).result
          = (reconcile { b with register := RegisterOutcome.ok } ns (some cluster)).result)
    ∧ (∀ m, b.register = RegisterOutcome.err m →
      (reconcile b ns (some cluster)).conds.reconcileError.isSome = true
      ∧ (reconcile b ns (some cluster)).trace
          = [RemoteCall.openNSClient, RemoteCall.registerNs, RemoteCall.closeNSClient]) := by
  constructor
  · intro hreg hupd
    simp [reconcile, hready, hdel, hclient, registerPhase, hreg, hupd, searchAttrPhase]
  · intro m hreg
    simp [reconcile, hready, hdel, hclient, registerPhase, hreg,
      handleError, handleErrorWithRequeue]

/-- Closed instance of C5: the register call answers already-exists and
the pass issues the update call. -/
theorem c5_register_already_exists_fallback_witness :
    RemoteCall.updateNs ∈
      (reconcile { behaviorOk with register := RegisterOutcome.alreadyExists }
        nsPlain (some { ready := true })).trace :=
  ((c5_register_already_exists_fallback
      { behaviorOk with register := RegisterOutcome.alreadyExists }
      nsPlain { ready := true } rfl rfl rfl).1 rfl rfl).1

theorem mem_addFin (ns : TemporalNamespace) :
    deletionFinalizer ∈ (addFin ns).finalizers := by
  by_cases h : deletionFinalizer ∈ ns.finalizers <;> simp [addFin, h]

theorem mem_ensureFinalizerM_iff (ns : TemporalNamespace)
    (hdel : ns.deletionTimestamp = none) :
    deletionFinalizer ∈ (ensureFinalizerM ns).finalizers
      ↔ (ns.allowDeletion = true ∨ deletionFinalizer ∈ ns.finalizers) := by
  by_cases ha : ns.allowDeletion
  · simp [ensureFinalizerM, hdel, ha, mem_addFin]
  · simp [ensureFinalizerM, hdel, ha]

theorem mem_ensureFinalizerM_of_mem {ns : TemporalNamespace}
    (h : deletionFinalizer ∈ ns.finalizers) :
    deletionFinalizer ∈ (ensureFinalizerM ns).finalizers := by
  unfold ensureFinalizerM
  split
  · exact mem_addFin ns
  · exact h

/-- C4 is refuted as stated: on a pass whose referenced cluster is not yet
ready, `allowDeletion` is true and no deletion timestamp is set, yet the
finalizer is not added (the pass requeues before `ensureFinalizer`), so
after that pass the finalizer is absent although deletion is allowed and
has not completed. -/
theorem c4_finalizer_lifecycle_counterexample :
    nsAllow.allowDeletion = true
    ∧ nsAllow.deletionTimestamp = none
    ∧ deletionFinalizer ∉
        (reconcile behaviorOk nsAllow (some { ready := false })).ns.finalizers := by
  decide

/-- C4 (amended): on every pass that reaches the finalizer-ensure step
(cluster present and ready, no deletion pending), the finalizer is
present afterwards iff `allowDeletion` is true or it was already present;
and a pass removes a present finalizer only when deletion is pending and
either the referenced cluster is absent (the finalizer-drop path) or the
remote delete call was issued and succeeded or reported not-found. -/
theorem c4_finalizer_lifecycle (b : RemoteBehavior) (ns : TemporalNamespace)
    (clusterOpt : Option TemporalCluster) :
    (∀ cluster, clusterOpt = some cluster → cluster.ready = true →
      ns.deletionTimestamp = none →
      (deletionFinalizer ∈ (reconcile b ns clusterOpt).ns.finalizers
        ↔ (ns.allowDeletion = true ∨ deletionFinalizer ∈ ns.finalizers)))
    ∧ (deletionFinalizer ∈ ns.finalizers →
      deletionFinalizer ∉ (reconcile b ns clusterOpt).ns.finalizers →
      ns.deletionTimestamp.isSome = true
      ∧ (clusterOpt = none
         ∨ (RemoteCall.deleteNs ∈ (reconcile b ns clusterOpt).trace
            ∧ (b.delete = DeleteOutcome.ok ∨ b.delete = DeleteOutcome.notFound)))) := by
  constructor
  · intro cluster hco hready hdel
    subst hco
    by_cases hns : b.nsClientOk = false
    · simp [reconcile, hready, hdel, hns, mem_ensureFinalizerM_iff ns hdel]
    · simp [reconcile, hready, hdel, hns, mem_ensureFinalizerM_iff ns hdel]
  · intro h1 h2
    cases clusterOpt with
    | none =>
      by_cases hdts : ns.deletionTimestamp.isSome
      · exact ⟨hdts, Or.inl rfl⟩
      · exact absurd h1 (by simp [reconcile, hdts] at h2; exact h2)
    | some cluster =>
      by_cases hready : cluster.ready = false
      · exact absurd h1 (by simp [reconcile, hready] at h2; exact h2)
      · by_cases hdts : ns.deletionTimestamp.isSome
        · by_cases hcc : b.clusterClientOk = false
          · exact absurd h1
              (by simp [reconcile, hready, hdts, ensureNamespaceDeletedM, h1, hcc,
                handleError, handleErrorWithRequeue] at h2)
          · cases hd : b.delete with
            | ok =>
              refine ⟨hdts, Or.inr ⟨?_, Or.inl rfl⟩⟩
              simp [reconcile, hready, hdts, ensureNamespaceDeletedM, h1, hcc, hd]
            | notFound =>
              refine ⟨hdts, Or.inr ⟨?_, Or.inr rfl⟩⟩
              simp [reconcile, hready, hdts, ensureNamespaceDeletedM, h1, hcc, hd]
            | err m =>
              exact absurd h1
                (by simp [reconcile, hready, hdts, ensureNamespaceDeletedM, h1, hcc, hd,
                  handleError, handleErrorWithRequeue] at h2)
        · have hkeep : deletionFinalizer ∈ (ensureFinalizerM ns).finalizers :=
            mem_ensureFinalizerM_of_mem h1
          by_cases hns : b.nsClientOk = false
          · exact absurd hkeep (by simpa [reconcile, hready, hdts, hns] using h2)
          · exact absurd hkeep (by simpa [reconcile, hready, hdts, hns] using h2)

/-- Closed instance of the amended C4: on a ready, non-deleting pass with
`allowDeletion` set, the finalizer is present afterwards. -/
theorem c4_finalizer_lifecycle_witness :
    deletionFinalizer ∈
      (reconcile behaviorOk nsAllow (some { ready := true })).ns.finalizers :=
  ((c4_finalizer_lifecycle behaviorOk nsAllow (some { ready := true })).1
    { ready := true } rfl rfl rfl).2 (Or.inl rfl)

theorem reconcile_result_shape (b : RemoteBehavior) (ns : TemporalNamespace)
    (clusterOpt : Option TemporalCluster) :
    (reconcile b ns clusterOpt).result
        = { requeueAfterSeconds := 0, requeue := false, err := none }
    ∨ ((reconcile b ns clusterOpt).result
        = { requeueAfterSeconds := 10, requeue := false, err := none }
       ∧ (reconcile b ns clusterOpt).conds = initConds) := by
  cases clusterOpt with
  | none =>
    by_cases h : ns.deletionTimestamp.isSome <;>
      simp [reconcile, h, handleError, handleErrorWithRequeue]
  | some cluster =>
    by_cases hr : cluster.ready = false
    · simp [reconcile, hr]
    · by_cases hd : ns.deletionTimestamp.isSome
      · by_cases hfin : deletionFinalizer ∈ ns.finalizers
        · by_cases hcc : b.clusterClientOk = false
          · simp [reconcile, hr, hd, ensureNamespaceDeletedM, hfin, hcc,
              handleError, handleErrorWithRequeue]
          · cases hdel : b.delete <;>
              simp [reconcile, hr, hd, ensureNamespaceDeletedM, hfin, hcc, hdel,
                handleError, handleErrorWithRequeue]
        · simp [reconcile, hr, hd, ensureNamespaceDeletedM, hfin]
      · by_cases hns : b.nsClientOk = false
        · simp [reconcile, hr, hd, hns, handleError, handleErrorWithRequeue]
        · cases hreg : b.register with
          | err m =>
            simp [reconcile, hr, hd, hns, registerPhase, hreg,
              handleError, handleErrorWithRequeue]
          | ok =>
            simp [reconcile, hr, hd, hns, registerPhase, hreg, searchAttrPhase,
              handleError, handleErrorWithRequeue]
          | alreadyExists =>
            cases hupd : b.update with
            | some m =>
              simp [reconcile, hr, hd, hns, registerPhase, hreg, hupd,
                handleError, handleErrorWithRequeue]
            | none =>
              simp [reconcile, hr, hd, hns, registerPhase, hreg, hupd, searchAttrPhase,
                handleError, handleErrorWithRequeue]

/-- C6 is refuted as stated: `handleErrorWithRequeue` with the default
zero delay returns a zero result with a nil error, an outcome the
runtime's requeue policy ignores — no backoff retry is engaged. -/
theorem c6_error_requeue_counterexample :
    (handleErrorWithRequeue initConds "ReconcileError" "boom" 0).2
        = { requeueAfterSeconds := 0, requeue := false, err := none }
    ∧ triggersBackoff (handleErrorWithRequeue initConds "ReconcileError" "boom" 0).2
        = false := by
  decide

/-- C6 (amended): on every failing pass the `ReconcileError` condition is
set True with the triggering reason and message, and the pass returns the
caller-specified delay with a nil error; every failing pass of `Reconcile`
passes a zero delay, and that outcome does not engage the runtime's
backoff retry — the object waits for the next watch event. -/
theorem c6_error_condition_and_requeue :
    (∀ conds reason msg d, reason ≠ "" →
      handleErrorWithRequeue conds reason msg d
        = ({ conds with reconcileError := some (reason, msg) },
           { requeueAfterSeconds := d, requeue := false, err := none }))
    ∧ (∀ conds reason msg,
      handleError conds reason msg = handleErrorWithRequeue conds reason msg 0)
    ∧ (∀ b ns clusterOpt,
      (reconcile b ns clusterOpt).conds.reconcileError.isSome = true →
      (reconcile b ns clusterOpt).result
          = { requeueAfterSeconds := 0, requeue := false, err := none }
      ∧ triggersBackoff (reconcile b ns clusterOpt).result = false) := by
  refine ⟨?_, ?_, ?_⟩
  · intro conds reason msg d h
    simp [handleErrorWithRequeue, h]
  · intro conds reason msg
    rfl
  · intro b ns clusterOpt h
    rcases reconcile_result_shape b ns clusterOpt with hres | ⟨hres, hconds⟩
    · exact ⟨hres, by simp [triggersBackoff, hres]⟩
    · rw [hconds] at h
      simp [initConds] at h

/-- Closed instance of the amended C6 at a nonzero caller delay. -/
theorem c6_error_condition_and_requeue_witness :
    handleErrorWithRequeue initConds "ReconcileError" "boom" 7
      = ({ initConds with reconcileError := some ("ReconcileError", "boom") },
         { requeueAfterSeconds := 7, requeue := false, err := none }) :=
  c6_error_condition_and_requeue.1 initConds "ReconcileError" "boom" 7 (by decide)

theorem defaultString_idem (v d : String) :
    defaultString (defaultString v d) d = defaultString v d := by
  by_cases h : v = "" <;> simp [defaultString, h]

theorem defaultString_ne {d : String} (h : d ≠ "") (v : String) :
    defaultString v d ≠ "" := by
  by_cases hv : v = "" <;> simp [defaultString, hv, h]

theorem defaultString_of_ne {v : String} (h : v ≠ "") (d : String) :
    defaultString v d = v := by
  simp [defaultString, h]

theorem defaultService_idem (o : Option ServiceSpec) (port mport : Int) :
    defaultService (some (defaultService o port mport)) port mport
      = defaultService o port mport := by
  cases o <;> simp [defaultService]

theorem defaultDatastore_idem (d : DatastoreSpec) :
    defaultDatastore (defaultDatastore d) = defaultDatastore d := by
  rcases d with ⟨nm, sql⟩
  cases sql <;> simp [defaultDatastore, defaultString_idem]

theorem defaultMTLS_idem (m : MTLSSpec) :
    defaultMTLS (defaultMTLS m) = defaultMTLS m := by
  rcases m with ⟨p, i, f, r, cd⟩
  cases cd <;> simp [defaultMTLS]

theorem applyDefaults_mtls (s : ClusterSpec) :
    (applyDefaults s).mtls =
      if mtlsWithCertManagerEnabled s then s.mtls.map defaultMTLS else s.mtls := rfl

theorem mtlsWithCertManagerEnabled_applyDefaults (s : ClusterSpec) :
    mtlsWithCertManagerEnabled (applyDefaults s) = mtlsWithCertManagerEnabled s := by
  cases hm : s.mtls with
  | none => simp [mtlsWithCertManagerEnabled, applyDefaults, hm]
  | some m =>
    by_cases hc : m.provider = "cert-manager"
        ∧ (m.internodeEnabled = true ∨ m.frontendEnabled = true)
    · simp [mtlsWithCertManagerEnabled, applyDefaults, hm, defaultMTLS, hc]
    · simp [mtlsWithCertManagerEnabled, applyDefaults, hm, defaultMTLS, hc]

theorem map_defaultDatastore_idem (l : List DatastoreSpec) :
    (l.map defaultDatastore).map defaultDatastore = l.map defaultDatastore := by
  induction l with
  | nil => rfl
  | cons h t ih => simp [defaultDatastore_idem, ih]

theorem clusterSpec_ext {a b : ClusterSpec}
    (h1 : a.version = b.version) (h2 : a.image = b.image)
    (h3 : a.services = b.services) (h4 : a.datastores = b.datastores)
    (h5 : a.persistence = b.persistence) (h6 : a.ui = b.ui)
    (h7 : a.adminTools = b.adminTools) (h8 : a.mtls = b.mtls) : a = b := by
  cases a
  cases b
  simp_all

theorem applyDefaults_idem (s : ClusterSpec) :
    applyDefaults (applyDefaults s) = applyDefaults s := by
  have hmtls : (applyDefaults (applyDefaults s)).mtls = (applyDefaults s).mtls := by
    rw [applyDefaults_mtls (applyDefaults s), mtlsWithCertManagerEnabled_applyDefaults]
    by_cases he : mtlsWithCertManagerEnabled s = true
    · rw [if_pos he, applyDefaults_mtls s, if_pos he]
      cases s.mtls <;> simp [defaultMTLS_idem]
    · rw [if_neg he, applyDefaults_mtls s, if_neg he]
  refine clusterSpec_ext ?_ ?_ ?_ ?_ ?_ ?_ ?_ hmtls
  · simp [applyDefaults, defaultString_idem]
  · simp [applyDefaults, defaultString_idem]
  · simp [applyDefaults, defaultService_idem]
  · simp only [applyDefaults]
    exact map_defaultDatastore_idem s.datastores
  · simp [applyDefaults, defaultString_idem]
  · simp [applyDefaults, defaultString_idem]
  · simp [applyDefaults, defaultString_idem]

/-- A service spec block with replicas, port and membership port all
set. -/
def ServiceFilled (o : Option ServiceSpec) : Prop :=
  ∃ x, o = some x ∧ x.replicas.isSome = true ∧ x.port.isSome = true
    ∧ x.membershipPort.isSome = true

/-- Every optional field `reconcileDefaults` governs is set in `after`
(fields whose default is copied from another field, or guarded by the
mutual-TLS predicate, are set whenever their source is). -/
def SpecNormalized (before after : ClusterSpec) : Prop :=
  after.version ≠ "" ∧ after.image ≠ ""
  ∧ (∃ sv, after.services = some sv ∧ ServiceFilled sv.frontend
      ∧ ServiceFilled sv.history ∧ ServiceFilled sv.matching ∧ ServiceFilled sv.worker)
  ∧ (∀ d ∈ after.datastores, ∀ q, d.sql = some q → q.connectProtocol ≠ "")
  ∧ (before.persistence.defaultStore ≠ "" → after.persistence.visibilityStore ≠ "")
  ∧ (∃ u, after.ui = some u ∧ u.version ≠ "" ∧ u.image ≠ "")
  ∧ (∃ t, after.adminTools = some t ∧ t.image ≠ "")
  ∧ (mtlsWithCertManagerEnabled before = true →
      ∃ m, after.mtls = some m ∧ m.refreshInterval.isSome = true
        ∧ ∃ cd, m.certificatesDuration = some cd
          ∧ cd.rootCACertificate.isSome = true
          ∧ cd.intermediateCAsCertificates.isSome = true
          ∧ cd.clientCertificates.isSome = true
          ∧ cd.frontendCertificate.isSome = true
          ∧ cd.internodeCertificate.isSome = true)

/-- Every field of `x` that is set keeps its exact value in `y`. -/
def SvcKeep (x y : Option ServiceSpec) : Prop :=
  ∀ c, x = some c → ∃ d, y = some d
    ∧ (∀ r, c.replicas = some r → d.replicas = some r)
    ∧ (∀ p, c.port = some p → d.port = some p)
    ∧ (∀ m, c.membershipPort = some m → d.membershipPort = some m)
    ∧ d.httpPort = c.httpPort

/-- `reconcileDefaults` never clears and never overrides an already-set
field: every field set in `before` keeps its exact value in `after`. -/
def SpecPreserved (before after : ClusterSpec) : Prop :=
  (before.version ≠ "" → after.version = before.version)
  ∧ (before.image ≠ "" → after.image = before.image)
  ∧ (∃ sv', after.services = some sv'
      ∧ SvcKeep (before.services.getD {}).frontend sv'.frontend
      ∧ SvcKeep (before.services.getD {}).history sv'.history
      ∧ SvcKeep (before.services.getD {}).matching sv'.matching
      ∧ SvcKeep (before.services.getD {}).worker sv'.worker)
  ∧ after.datastores = before.datastores.map defaultDatastore
  ∧ (∀ d : DatastoreSpec, (defaultDatastore d).name = d.name
      ∧ ∀ q, d.sql = some q → ∃ q', (defaultDatastore d).sql = some q'
          ∧ (q.connectProtocol ≠ "" → q'.connectProtocol = q.connectProtocol))
  ∧ after.persistence.defaultStore = before.persistence.defaultStore
  ∧ (before.persistence.visibilityStore ≠ "" →
      after.persistence.visibilityStore = before.persistence.visibilityStore)
  ∧ (∀ u, before.ui = some u → ∃ u', after.ui = some u'
      ∧ u'.enabled = u.enabled
      ∧ (u.version ≠ "" → u'.version = u.version)
      ∧ (u.image ≠ "" → u'.image = u.image))
  ∧ (∀ t, before.adminTools = some t → ∃ t', after.adminTools = some t'
      ∧ t'.enabled = t.enabled ∧ (t.image ≠ "" → t'.image = t.image))
  ∧ (∀ m, before.mtls = some m → ∃ m', after.mtls = some m'
      ∧ m'.provider = m.provider
      ∧ m'.internodeEnabled = m.internodeEnabled
      ∧ m'.frontendEnabled = m.frontendEnabled
      ∧ (∀ r, m.refreshInterval = some r → m'.refreshInterval = some r)
      ∧ (∀ cd, m.certificatesDuration = some cd →
          ∃ cd', m'.certificatesDuration = some cd'
            ∧ (∀ x, cd.rootCACertificate = some x → cd'.rootCACertificate = some x)
            ∧ (∀ x, cd.intermediateCAsCertificates = some x →
                cd'.intermediateCAsCertificates = some x)
            ∧ (∀ x, cd.clientCertificates = some x → cd'.clientCertificates = some x)
            ∧ (∀ x, cd.frontendCertificate = some x → cd'.frontendCertificate = some x)
            ∧ (∀ x, cd.internodeCertificate = some x → cd'.internodeCertificate = some x)))

theorem serviceFilled_defaultService (o : Option ServiceSpec) (p m : Int) :
    ServiceFilled (some (defaultService o p m)) :=
  ⟨defaultService o p m, rfl, by simp [defaultService], by simp [defaultService],
    by simp [defaultService]⟩

theorem svcKeep_defaultService (o : Option ServiceSpec) (p m : Int) :
    SvcKeep o (some (defaultService o p m)) := by
  intro c hc
  subst hc
  refine ⟨defaultService (some c) p m, rfl, ?_, ?_, ?_, ?_⟩
  · intro r hr
    simp [defaultService, hr]
  · intro q hq
    simp [defaultService, hq]
  · intro q hq
    simp [defaultService, hq]
  · simp [defaultService]

/-- C8: `reconcileDefaults` applies a pure normalization to the spec and
reports change against a snapshot; the normalization is idempotent, so a
second call on the result changes nothing and reports `false`; after one
call every optional field it governs is set; and no field that was
already set is cleared or overridden. -/
theorem c8_reconcile_defaults (s : ClusterSpec) :
    (reconcileDefaults s).1 = applyDefaults s
    ∧ applyDefaults (applyDefaults s) = applyDefaults s
    ∧ (reconcileDefaults (reconcileDefaults s).1).2 = false
    ∧ SpecNormalized s (applyDefaults s)
    ∧ SpecPreserved s (applyDefaults s) := by
  refine ⟨rfl, applyDefaults_idem s, ?_, ?_, ?_⟩
  · simp [reconcileDefaults, applyDefaults_idem]
  · refine ⟨?_, ?_, ?_, ?_, ?_, ?_, ?_, ?_⟩
    · exact defaultString_ne (by decide) s.version
    · exact defaultString_ne (by decide) s.image
    · exact ⟨_, rfl, serviceFilled_defaultService _ 7233 6933,
        serviceFilled_defaultService _ 7234 6934,
        serviceFilled_defaultService _ 7235 6935,
        serviceFilled_defaultService _ 7239 6939⟩
    · intro d hd q hq
      rcases List.mem_map.1 hd with ⟨d0, hd0, rfl⟩
      rcases d0 with ⟨nm, sql⟩
      cases sql with
      | none => simp [defaultDatastore] at hq
      | some q0 =>
        simp [defaultDatastore] at hq
        rw [← hq]
        exact defaultString_ne (by decide) q0.connectProtocol
    · intro h
      exact defaultString_ne h s.persistence.visibilityStore
    · exact ⟨_, rfl, defaultString_ne (by decide) _, defaultString_ne (by decide) _⟩
    · exact ⟨_, rfl, defaultString_ne (by decide) _⟩
    · intro he
      cases hm : s.mtls with
      | none => simp [mtlsWithCertManagerEnabled, hm] at he
      | some m =>
        refine ⟨defaultMTLS m, ?_, by simp [defaultMTLS], ?_⟩
        · rw [applyDefaults_mtls, if_pos he, hm]
          rfl
        · exact ⟨_, rfl, rfl, rfl, rfl, rfl, rfl⟩
  · refine ⟨?_, ?_, ?_, rfl, ?_, rfl, ?_, ?_, ?_, ?_⟩
    · intro h
      exact defaultString_of_ne h _
    · intro h
      exact defaultString_of_ne h _
    · exact ⟨_, rfl, svcKeep_defaultService _ 7233 6933,
        svcKeep_defaultService _ 7234 6934,
        svcKeep_defaultService _ 7235 6935,
        svcKeep_defaultService _ 7239 6939⟩
    · intro d
      rcases d with ⟨nm, sql⟩
      cases sql with
      | none => exact ⟨rfl, by intro q hq; simp [defaultDatastore] at hq⟩
      | some q0 =>
        refine ⟨rfl, ?_⟩
        intro q hq
        have hq' : q0 = q := by simpa [defaultDatastore] using hq
        subst hq'
        exact ⟨_, rfl, fun hne => defaultString_of_ne hne _⟩
    · intro h
      exact defaultString_of_ne h _
    · intro u hu
      refine ⟨_, rfl, ?_, ?_, ?_⟩
      · simp [hu]
      · intro hne
        simp [hu, defaultString_of_ne hne]
      · intro hne
        simp [hu, defaultString_of_ne hne]
    · intro t ht
      refine ⟨_, rfl, ?_, ?_⟩
      · simp [ht]
      · intro hne
        simp [ht, defaultString_of_ne hne]
    · intro m hm
      by_cases he : mtlsWithCertManagerEnabled s = true
      · refine ⟨defaultMTLS m, ?_, rfl, rfl, rfl, ?_, ?_⟩
        · rw [applyDefaults_mtls, if_pos he, hm]
          rfl
        · intro r hr
          simp [defaultMTLS, hr]
        · intro cd hcd
          refine ⟨_, rfl, ?_, ?_, ?_, ?_, ?_⟩ <;>
            · intro x hx
              simp [defaultMTLS, hcd, hx]
      · refine ⟨m, ?_, rfl, rfl, rfl, fun r hr => hr, ?_⟩
        · rw [applyDefaults_mtls, if_neg he, hm]
        · intro cd hcd
          exact ⟨cd, hcd, fun x hx => hx, fun x hx => hx, fun x hx => hx,
            fun x hx => hx, fun x hx => hx⟩

/-- Closed instance of C8: a second normalization of an already-normalized
spec reports no change, and a user-set version survives normalization. -/
theorem c8_reconcile_defaults_witness :
    (reconcileDefaults (reconcileDefaults { version := "9.9.9" }).1).2 = false
    ∧ (applyDefaults { version := "9.9.9" }).version = "9.9.9" :=
  ⟨(c8_reconcile_defaults { version := "9.9.9" }).2.2.1,
   (c8_reconcile_defaults { version := "9.9.9" }).2.2.2.2.1 (by decide)⟩

/-- C9: with `Frontend.Port` set, the service built by
`FrontendServiceBuilder.Update` has exactly one port entry — the primary
gRPC port — when `Frontend.HTTPPort` is unset, and exactly two entries,
the primary first and the HTTP port appended, when it is set. -/
theorem c9_frontend_service_ports (f : ServiceSpec) (svc : K8sService) (p : Int)
    (hp : f.port = some p) :
    (f.httpPort = none →
      frontendServiceUpdate f svc
        = some { type := "ClusterIP",
                 ports := [{ name := "grpc-rpc", protocol := "TCP", port := p,
                             targetPort := "rpc" }] })
    ∧ (∀ hport, f.httpPort = some hport →
      frontendServiceUpdate f svc
        = some { type := "ClusterIP",
                 ports := [{ name := "grpc-rpc", protocol := "TCP", port := p,
                             targetPort := "rpc" },
                           { name := "http", protocol := "TCP", port := hport,
                             targetPort := "http" }] }) := by
  constructor
  · intro h
    simp [frontendServiceUpdate, hp, h]
  · intro hport h
    simp [frontendServiceUpdate, hp, h]

/-- Closed instance of C9 with both ports set: two entries, primary
first. -/
theorem c9_frontend_service_ports_witness :
    frontendServiceUpdate { port := some 7233, httpPort := some 7243 } {}
      = some { type := "ClusterIP",
               ports := [{ name := "grpc-rpc", protocol := "TCP", port := 7233,
                           targetPort := "rpc" },
                         { name := "http", protocol := "TCP", port := 7243,
                           targetPort := "http" }] } :=
  (c9_frontend_service_ports { port := some 7233, httpPort := some 7243 } {} 7233 rfl).2
    7243 rfl

end TemporalOperator
